import Mathlib

/-!
Shallow embedding of the `hrtclient` Go package (a typed REST client adapter):
the decoder family (status-bucket dispatch, JSON/text error decoders,
validation wrapping), error construction, client header merging, `WithHeader`
cloning, and the generic `Endpoint` binder's pointer-shaped response case.

Modelling conventions:
* Go errors are an inductive `GoErr`; a Go function returning `error` returns
  `Option GoErr` (`none` = nil error).
* HTTP response bodies are modelled as fully materialised byte strings
  (`String`); `io.ReadAll` on such a body always succeeds.
* Go status codes are `Int` (Go `int`); Go's `/` on int truncates toward
  zero, which is `Int.tdiv`.
* Go maps are modelled as association lists with `List.lookup` semantics
  (first match wins); where aliasing of maps matters (`Client.WithHeader`),
  maps live in an explicit store indexed by `Nat` references.
-/

/-- Errors produced by the hrtclient decode/encode paths.
`httpError` models the `hrt.HTTPError` carrying a status code and message;
`readBodyError` models `fmt.Errorf("read body error: %w", err)`;
`jsonDecodeError` models `fmt.Errorf("decode error: %w", err)`;
`noDecoderError` models `fmt.Errorf("no decoder for status code %d (%s)", ...)`
(status code and raw body bytes are its data);
`otherError` stands for any other error value crossing the boundary
(transport errors, validation errors from user `Validate` methods, ...). -/
inductive GoErr where
  | httpError (code : Int) (msg : String)
  | readBodyError
  | jsonDecodeError
  | noDecoderError (code : Int) (body : String)
  | otherError (s : String)
deriving DecidableEq, Repr

/-- Modelled from the spec: `hrt.NewHTTPError` comes from the external
`libdb.so/hrt` dependency (not in this repository). Per the spec, status-coded
errors are "formatted as `<status-code>: <message>`"; we model the constructor
as building an `httpError` holding the code and message verbatim. -/
def hrtNewHTTPError (code : Int) (msg : String) : GoErr :=
  .httpError code msg

/-- Modelled from the spec: the `Error()` string of a status-coded error is
`"<code>: <message>"`. Other error kinds render their formatted message. -/
def GoErr.errorString : GoErr → String
  | .httpError code msg => toString code ++ ": " ++ msg
  | .readBodyError => "read body error"
  | .jsonDecodeError => "decode error"
  | .noDecoderError code body =>
      "no decoder for status code " ++ toString code ++ " (" ++ body ++ ")"
  | .otherError s => s

/-- `strings.TrimPrefix(s, p)`: `s` without the leading `p` when `p` is a
prefix of `s`, otherwise `s` unchanged; at most one occurrence is removed.
Modelled on the character lists underlying the strings. -/
def goTrimPfx (s p : String) : String :=
  if p.data.isPrefixOf s.data then ⟨s.data.drop p.data.length⟩ else s

/-- `NewHTTPError` (decoder.go): builds an `hrt.HTTPError` with the given
status code and message, except that if the message already begins with
`"<code>: "` that one redundant occurrence is removed first
(`strings.TrimPrefix` strips at most one occurrence). -/
def NewHTTPError (code : Int) (str : String) : GoErr :=
  hrtNewHTTPError code (goTrimPfx str (toString code ++ ": "))

/-- An HTTP response as seen by the decoders: status code and a fully
materialised body (raw bytes as a string). -/
structure Resp where
  statusCode : Int
  body : String
deriving DecidableEq, Repr

/-- `Status1xx` (decoder.go): sentinel key matching all 1xx status codes. -/
def Status1xx : Int := -1

/-- `Status2xx` (decoder.go): sentinel key matching all 2xx status codes. -/
def Status2xx : Int := -2

/-- `Status3xx` (decoder.go): sentinel key matching all 3xx status codes. -/
def Status3xx : Int := -3

/-- `Status4xx` (decoder.go): sentinel key matching all 4xx status codes. -/
def Status4xx : Int := -4

/-- `Status5xx` (decoder.go): sentinel key matching all 5xx status codes. -/
def Status5xx : Int := -5

/-- A `StatusDecoder` map, `map[StatusDecoderKey]Decoder`, as an association
list from keys to sub-decoders. The sub-decoder type `D` stays abstract: Go's
`Decoder` is an interface, so a sub-decoder may be any implementation; its
behaviour enters through a `run` interpretation parameter. -/
def StatusMap (D : Type) : Type := List (Int × D)

/-- Lookup in a `StatusDecoder` map (Go map indexing `e[k]` with its
comma-ok result). -/
def StatusMap.find {D : Type} (m : StatusMap D) (k : Int) : Option D :=
  List.lookup k m

/-- Sub-decoder selection of `StatusDecoder.Decode`, range-switch variant
(decoder.go lines 54-69): first an exact status-code lookup; if that misses,
a five-way `switch` on the status class looks up the matching sentinel;
outside 100-599 no bucket lookup happens. Returns `none` when no decoder was
selected (the `!ok` fallback case). -/
def selectDecSwitch {D : Type} (m : StatusMap D) (code : Int) : Option D :=
  match m.find code with
  | some ec => some ec
  | none =>
    if 100 ≤ code ∧ code < 200 then m.find Status1xx
    else if 200 ≤ code ∧ code < 300 then m.find Status2xx
    else if 300 ≤ code ∧ code < 400 then m.find Status3xx
    else if 400 ≤ code ∧ code < 500 then m.find Status4xx
    else if 500 ≤ code ∧ code < 600 then m.find Status5xx
    else none

/-- Sub-decoder selection of `StatusDecoder.Decode`, arithmetic variant
(second source file, lines 73-78): first an exact status-code lookup; if that
misses, one lookup of `-statusCode / 100` computed with Go's
truncating-toward-zero integer division (`Int.tdiv`). -/
def selectDecArith {D : Type} (m : StatusMap D) (code : Int) : Option D :=
  match m.find code with
  | some ec => some ec
  | none => m.find (Int.tdiv (-code) 100)

/-- The no-decoder fallback of `StatusDecoder.Decode` (both variants): read
the whole body; an empty body is acceptable (nil error), a non-empty body is
a "no decoder for status code %d (%s)" error carrying the status code and the
raw body bytes. (Bodies are materialised, so `io.ReadAll` succeeds.) -/
def statusNoDecFallback (r : Resp) : Option GoErr :=
  if r.body = "" then none
  else some (.noDecoderError r.statusCode r.body)

/-- `StatusDecoder.Decode`, range-switch variant (decoder.go lines 54-85).
`run` interprets a sub-decoder on a response and the output slot `v : σ`
(sub-decoders may write through `v`, so they return the updated slot);
the `StatusDecoder` itself passes `v` through untouched on the fallback. -/
def statusDecodeSwitch {D σ : Type} (run : D → Resp → σ → Option GoErr × σ)
    (m : StatusMap D) (r : Resp) (v : σ) : Option GoErr × σ :=
  match selectDecSwitch m r.statusCode with
  | some ec => run ec r v
  | none => (statusNoDecFallback r, v)

/-- `StatusDecoder.Decode`, arithmetic variant (second source file,
lines 73-94): same shape, bucket key computed arithmetically. -/
def statusDecodeArith {D σ : Type} (run : D → Resp → σ → Option GoErr × σ)
    (m : StatusMap D) (r : Resp) (v : σ) : Option GoErr × σ :=
  match selectDecArith m r.statusCode with
  | some ec => run ec r v
  | none => (statusNoDecFallback r, v)

/-- `validatedDecoder.Decode` (second source file, lines 113-123): run the
inner decoder; a decode error is returned unchanged. On success, if the
output value's dynamic type exposes `Validate() error` (modelled by
`validate = some f`), return its result; otherwise nil. The validator runs
on the post-decode output value. -/
def validatedDecoderDecode {σ : Type} (dec : Resp → σ → Option GoErr × σ)
    (validate : Option (σ → Option GoErr)) (r : Resp) (v : σ) :
    Option GoErr × σ :=
  match dec r v with
  | (some err, v2) => (some err, v2)
  | (none, v2) =>
    match validate with
    | some f => (f v2, v2)
    | none => (none, v2)

/-- The `\x7b` byte, written via its code point to keep braces out of
character syntax. -/
def lbraceChar : Char := Char.ofNat 123

/-- The `\x7d` byte. -/
def rbraceChar : Char := Char.ofNat 125

/-- Scans a JSON string literal body up to its closing quote (no escape
sequences; part of the minimal JSON model below). -/
def scanStrBody : List Char → List Char → Option (String × List Char)
  | [], _ => none
  | c :: cs, acc =>
    if c = '"' then some (⟨acc.reverse⟩, cs) else scanStrBody cs (c :: acc)

/-- Parses a JSON string literal `"..."` (minimal JSON model). -/
def scanStrLit : List Char → Option (String × List Char)
  | c :: cs => if c = '"' then scanStrBody cs [] else none
  | [] => none

/-- Parses one `"key":"value"` member (minimal JSON model). -/
def scanMember (cs : List Char) : Option ((String × String) × List Char) :=
  match scanStrLit cs with
  | some (k, c :: cs2) =>
    if c = ':' then
      match scanStrLit cs2 with
      | some (w, cs3) => some ((k, w), cs3)
      | none => none
    else none
  | _ => none

/-- Parses comma-separated members up to the closing brace (minimal JSON
model; fuelled by the input length). -/
def scanMembers : Nat → List Char → Option (List (String × String) × List Char)
  | 0, _ => none
  | fuel + 1, cs =>
    match scanMember cs with
    | none => none
    | some (p, c :: cs2) =>
      if c = ',' then
        match scanMembers fuel cs2 with
        | some (ps, rest) => some (p :: ps, rest)
        | none => none
      else if c = rbraceChar then some ([p], cs2)
      else none
    | some (_, []) => none

/-- Modelled from the spec: the JSON serialization primitive is an external
collaborator ("assumed supplied by a standard codec library"). This is a
minimal model of parsing one JSON value as a flat object with string fields
and no whitespace or escapes: `\x7b"k":"v",...\x7d`. Anything else (empty
input included) is a parse error. Trailing bytes after the object are
ignored, as `json.Decoder.Decode` reads a single value. -/
def parseFlatObj (s : String) : Option (List (String × String)) :=
  match s.toList with
  | c :: cs =>
    if c = lbraceChar then
      match cs with
      | c2 :: _ =>
        if c2 = rbraceChar then some []
        else
          match scanMembers cs.length cs with
          | some (ps, _) => some ps
          | none => none
      | [] => none
    else none
  | [] => none

/-- Modelled from the spec: `encoding/json` unmarshalling of the response
body into the anonymous struct `struct \x7b Error string `json:"error"` \x7d`
used by `jsonErrorDecoder.Decode`. The struct tag names the JSON field
`"error"`, so decoding succeeds on a JSON object and yields that field's
string value, or the zero value `""` when the field is absent (for duplicate
keys Go keeps the last value). Any non-object or malformed body is a decode
error. -/
def goDecodeErrorStructField (raw : String) : Except Unit String :=
  match parseFlatObj raw with
  | some fields => .ok ((List.lookup "error" fields.reverse).getD "")
  | none => .error ()

/-- `jsonErrorDecoder.Decode` (decoder.go lines 119-127): JSON-decodes the
body into a struct whose single field is tagged `json:"error"`, then builds
a status-coded error from the response status and that field's value. The
decoder's configured `field` is carried in the receiver
(`jsonErrorDecoder\x7bfield\x7d`) exactly as in the source; the body of
`Decode` never consults it. -/
def jsonErrorDecoderDecode (field : String) (r : Resp) : Option GoErr :=
  match goDecodeErrorStructField r.body with
  | .error _ => some .jsonDecodeError
  | .ok msg => some (NewHTTPError r.statusCode msg)

/-- An `http.Header`: an association list from header keys to value lists,
with `List.lookup` (first match) as the map semantics. -/
abbrev Header : Type := List (String × List String)

/-- Go map indexing `h[k]` with comma-ok. -/
def Header.find (h : Header) (k : String) : Option (List String) :=
  List.lookup k h

/-- `for k, v := range ov \x7b base[k] = v \x7d`: key-wise overwrite of
`base` by `ov` — a key present in `ov` fully replaces `base`'s values for
that key. Under lookup semantics this is `ov ++ base`. -/
def headerOverwrite (base ov : Header) : Header := ov ++ base

/-- An outgoing `http.Request` as far as the header-merge claims need it. -/
structure Request where
  method : String
  url : String
  header : Header
deriving DecidableEq, Repr

/-- The value-level view of a `Client` for the `Do` pipeline: base URL and
stored header set. -/
structure ClientV where
  baseURL : String
  header : Header

/-- The request sent by `Client.Do` (part_000 lines 62-83): the request is
built from `baseURL + path` and the method with its default headers
(`baseHeader` also includes anything the encoder set, e.g. `Content-Type`);
then the client's stored headers overwrite key-wise; then the ambient
context-scoped headers overwrite key-wise; the result goes to
`c.client.Do(req)`. -/
def doSentRequest (c : ClientV) (method path : String)
    (baseHeader ambient : Header) : Request :=
  { method := method, url := c.baseURL ++ path,
    header := headerOverwrite (headerOverwrite baseHeader c.header) ambient }

/-- A store of `http.Header` map values indexed by references: Go maps are
reference types, so aliasing between two `Client` values is visible only in
a model where the map contents live behind references. `next` is the next
fresh reference; allocated references are those `< next`. -/
structure HeaderStore where
  maps : Nat → Header
  next : Nat

/-- A `Client` (part_000 lines 16-21): the transport handle and codec are
opaque references (only identity matters for the claims), the base URL is a
string, and the header field is a Go map — `none` models a nil map,
`some r` a reference into the store. -/
structure GoClient where
  httpClient : Nat
  codec : Nat
  baseURL : String
  header : Option Nat
deriving DecidableEq, Repr

/-- `Client.WithHeader` (part_000 lines 46-57): copy the struct; if the copy
has a non-nil header map, replace it with a clone and overwrite the clone's
entries key-wise with the argument's (`http.Header.Clone` allocates a fresh
map with the same entries, here a fresh reference holding the merged
entries); otherwise set the copy's header field to the argument map itself.
The argument map is `hRef`, a reference into the store. -/
def clientWithHeader (c : GoClient) (hRef : Nat) (st : HeaderStore) :
    GoClient × HeaderStore :=
  match c.header with
  | some r =>
    ({ c with header := some st.next },
     { maps := fun a =>
         if a = st.next then headerOverwrite (st.maps r) (st.maps hRef)
         else st.maps a,
       next := st.next + 1 })
  | none => ({ c with header := some hRef }, st)

/-- The entries of a client's header map (nil map reads as empty). -/
def GoClient.headerEntries (c : GoClient) (st : HeaderStore) : Header :=
  match c.header with
  | some r => st.maps r
  | none => []

/-- A heap of `U` values addressed by `Nat` pointers, for the `Endpoint`
binder's pointer-shaped response case: `reflect.New` allocates a fresh zero
`U` and yields its address. -/
structure HeapU (U : Type) where
  data : Nat → U
  next : Nat

/-- `reflect.New(t.Elem())`: allocate a fresh zero `U`, returning its
address and the extended heap. -/
def heapAlloc {U : Type} (zeroU : U) (h : HeapU U) : Nat × HeapU U :=
  (h.next,
   { data := fun a => if a = h.next then zeroU else h.data a,
     next := h.next + 1 })

/-- The callable produced by `Endpoint` for a pointer-shaped response type
`RespT = *U` (part_000 lines 126-156): at binding time `newValue` is set to
allocate a fresh `U` and return its address, and `indirect` stays false; per
call, `out := newValue()`, then `err := client.Do(ctx, method, path, in,
out)` — modelled by `doCall`, which receives the output pointer and may
write through it — and finally `return out.(RespT), err`. The returned
pointer is `Option Nat` (`none` would be a nil `*U`). -/
def endpointPtrCall {U : Type} (zeroU : U)
    (doCall : Nat → HeapU U → HeapU U × Option GoErr) (h : HeapU U) :
    (Option Nat × Option GoErr) × HeapU U :=
  let pair := heapAlloc zeroU h
  let res := doCall pair.1 pair.2
  ((some pair.1, res.2), res.1)

/-! ## Supporting lemmas -/

/-- Lookup in an appended association list: the left list wins, which makes
`headerOverwrite base ov = ov ++ base` the key-wise-overwrite merge. -/
theorem lookup_append {α β : Type} [BEq α] [LawfulBEq α]
    (l1 l2 : List (α × β)) (k : α) :
    List.lookup k (l1 ++ l2) =
      match List.lookup k l1 with
      | some w => some w
      | none => List.lookup k l2 := by
  induction l1 with
  | nil => simp
  | cons p t ih =>
    by_cases hk : k = p.1
    · simp [List.lookup, hk]
    · have hb : (k == p.1) = false := beq_false_of_ne hk
      simpa [List.lookup, hb] using ih

/-- Go's `-code / 100` (truncating division) equals the negated Euclidean
quotient for non-negative `code`. -/
theorem tdiv_neg_hundred (code : Int) (h : 0 ≤ code) :
    Int.tdiv (-code) 100 = -(code / 100) := by
  rw [Int.neg_tdiv, Int.tdiv_eq_ediv] <;> omega

/-- For status codes 100-599, the two bucket-key computations — the range
switch of decoder.go and the `-code / 100` arithmetic of the second variant —
select the same sub-decoder. -/
theorem selectDec_eq {D : Type} (m : StatusMap D) (code : Int)
    (h1 : 100 ≤ code) (h2 : code < 600) :
    selectDecSwitch m code = selectDecArith m code := by
  unfold selectDecSwitch selectDecArith
  cases hf : m.find code with
  | some d => rfl
  | none =>
    rw [tdiv_neg_hundred code (by omega)]
    split_ifs with g1 g2 g3 g4 g5
    · have hq : code / 100 = 1 := by omega
      rw [hq]; rfl
    · have hq : code / 100 = 2 := by omega
      rw [hq]; rfl
    · have hq : code / 100 = 3 := by omega
      rw [hq]; rfl
    · have hq : code / 100 = 4 := by omega
      rw [hq]; rfl
    · have hq : code / 100 = 5 := by omega
      rw [hq]; rfl
    · omega

/-! ## Claim theorems -/

/-- C5: `NewHTTPError(code, message)` produces an error whose `Error()`
string is `"<code>: <message>"`, normalizing the message by stripping one
redundant `"<code>: "` prefix: both `NewHTTPError(400, "400: bad request")`
and `NewHTTPError(400, "bad request")` yield the string
`"400: bad request"`; in general an already-prefixed message is returned
as-is and an unprefixed one gains exactly one prefix. -/
theorem newHTTPError_normalizes :
    (NewHTTPError 400 "400: bad request").errorString = "400: bad request" ∧
    (NewHTTPError 400 "bad request").errorString = "400: bad request" ∧
    (∀ (code : Int) (msg : String),
      (toString code ++ ": ").data.isPrefixOf msg.data →
      (NewHTTPError code msg).errorString = msg) ∧
    (∀ (code : Int) (msg : String),
      ¬ (toString code ++ ": ").data.isPrefixOf msg.data →
      (NewHTTPError code msg).errorString = toString code ++ ": " ++ msg) := by
  refine ⟨by decide, by decide, ?_, ?_⟩
  · intro code msg h
    unfold NewHTTPError hrtNewHTTPError GoErr.errorString goTrimPfx
    rw [if_pos h]
    obtain ⟨t, ht⟩ := List.isPrefixOf_iff_prefix.mp h
    have hd : msg.data = (toString code ++ ": ").data ++ t := ht.symm
    apply String.ext
    rw [hd, List.drop_left]
    simp [String.data_append]
  · intro code msg h
    unfold NewHTTPError hrtNewHTTPError GoErr.errorString goTrimPfx
    rw [if_neg h]

/-- C5 witness: the normalization applied at `404` / `"404: nope"`. -/
theorem newHTTPError_normalizes_witness :
    (NewHTTPError 404 "404: nope").errorString = "404: nope" :=
  newHTTPError_normalizes.2.2.1 404 "404: nope" (by decide)

/-- C9: `ValidatedDecoder(d).Decode` fails with the validation error when the
inner decode succeeds but the decoded value's `Validate()` returns a non-nil
error; and when the inner decode fails, its error is returned unchanged. -/
theorem validatedDecoder_surfaces_errors {σ : Type}
    (dec : Resp → σ → Option GoErr × σ) (validate : Option (σ → Option GoErr))
    (r : Resp) (v : σ) :
    (∀ (f : σ → Option GoErr) (v2 : σ) (e : GoErr),
      dec r v = (none, v2) → validate = some f → f v2 = some e →
      validatedDecoderDecode dec validate r v = (some e, v2)) ∧
    (∀ (e : GoErr) (v2 : σ),
      dec r v = (some e, v2) →
      validatedDecoderDecode dec validate r v = (some e, v2)) := by
  constructor
  · intro f v2 e hdec hval hf
    simp [validatedDecoderDecode, hdec, hval, hf]
  · intro e v2 hdec
    simp [validatedDecoderDecode, hdec]

/-- C9 witness: a decoder that writes `1` into the slot and a validator that
rejects `1` make the wrapped decode fail with the validation error. -/
theorem validatedDecoder_surfaces_errors_witness :
    validatedDecoderDecode (fun _ n => (none, n + 1))
      (some fun n => if n = 1 then some (.otherError "invalid") else none)
      ⟨200, ""⟩ (0 : Nat) = (some (.otherError "invalid"), 1) :=
  (validatedDecoder_surfaces_errors (fun _ n => (none, n + 1))
      (some fun n => if n = 1 then some (.otherError "invalid") else none)
      ⟨200, ""⟩ 0).1
    (fun n => if n = 1 then some (.otherError "invalid") else none) 1
    (.otherError "invalid") rfl rfl (by decide)

/-- C7: when the map has a literal entry for the response's exact status
code, both `StatusDecoder.Decode` variants select that entry's sub-decoder
(never a bucket entry), and decoding runs exactly it. -/
theorem statusDecoder_literal_wins {D σ : Type}
    (run : D → Resp → σ → Option GoErr × σ) (m : StatusMap D) (r : Resp)
    (v : σ) (d : D) (hlit : m.find r.statusCode = some d) :
    selectDecSwitch m r.statusCode = some d ∧
    selectDecArith m r.statusCode = some d ∧
    statusDecodeSwitch run m r v = run d r v ∧
    statusDecodeArith run m r v = run d r v := by
  have hs : selectDecSwitch m r.statusCode = some d := by
    unfold selectDecSwitch
    rw [hlit]
  have ha : selectDecArith m r.statusCode = some d := by
    unfold selectDecArith
    rw [hlit]
  refine ⟨hs, ha, ?_, ?_⟩
  · unfold statusDecodeSwitch
    rw [hs]
  · unfold statusDecodeArith
    rw [ha]

/-- C7 witness: a map with a literal 404 entry and a 4xx bucket entry routes
a 404 response to the literal entry's sub-decoder (tag 1, not tag 2). -/
theorem statusDecoder_literal_wins_witness :
    statusDecodeSwitch (fun d _ v => (none, d + v))
      [((404 : Int), (1 : Nat)), (Status4xx, 2)] ⟨404, "x"⟩ (0 : Nat) =
      (none, 1) :=
  (statusDecoder_literal_wins (fun d _ v => (none, d + v))
      [((404 : Int), (1 : Nat)), (Status4xx, 2)] ⟨404, "x"⟩ 0 1 (by decide)).2.2.1

/-- C8: a `StatusDecoder` containing only a `Status2xx` entry routes every
response with status code 200-299 to that entry's sub-decoder, in both
`Decode` variants. -/
theorem statusDecoder_status2xx_bucket {D σ : Type}
    (run : D → Resp → σ → Option GoErr × σ) (d : D) (r : Resp) (v : σ)
    (h2 : 200 ≤ r.statusCode ∧ r.statusCode < 300) :
    statusDecodeSwitch run [(Status2xx, d)] r v = run d r v ∧
    statusDecodeArith run [(Status2xx, d)] r v = run d r v := by
  have hlit : StatusMap.find [(Status2xx, d)] r.statusCode = none := by
    unfold StatusMap.find Status2xx
    have : (r.statusCode == (-2 : Int)) = false := by
      apply beq_false_of_ne
      omega
    simp [List.lookup, this]
  constructor
  · unfold statusDecodeSwitch selectDecSwitch
    rw [hlit]
    rw [if_neg (by omega), if_pos (by omega : 200 ≤ r.statusCode ∧ r.statusCode < 300)]
    simp [StatusMap.find, List.lookup]
  · unfold statusDecodeArith selectDecArith
    rw [hlit, tdiv_neg_hundred r.statusCode (by omega)]
    have hq : r.statusCode / 100 = 2 := by omega
    rw [hq]
    simp [StatusMap.find, List.lookup, Status2xx]

/-- C8 witness: 200, 201 and 204 all reach the single `Status2xx`
sub-decoder (tag 7). -/
theorem statusDecoder_status2xx_bucket_witness :
    statusDecodeSwitch (fun d _ _ => (none, d)) [(Status2xx, (7 : Nat))]
      ⟨204, ""⟩ (0 : Nat) = (none, 7) ∧
    statusDecodeArith (fun d _ _ => (none, d)) [(Status2xx, (7 : Nat))]
      ⟨201, ""⟩ (0 : Nat) = (none, 7) :=
  ⟨(statusDecoder_status2xx_bucket (fun d _ _ => (none, d)) 7 ⟨204, ""⟩ 0
      (by decide)).1,
   (statusDecoder_status2xx_bucket (fun d _ _ => (none, d)) 7 ⟨201, ""⟩ 0
      (by decide)).2⟩

/-- C3: when neither a literal-code entry nor a status-class bucket entry
matches (in either variant), `Decode` reads the whole body and succeeds
(nil error) exactly when the body is empty; a non-empty body yields the
"no decoder" error carrying the exact status code and the raw body bytes.
The output slot is left untouched. -/
theorem statusDecoder_unmatched_fallback {D σ : Type}
    (run : D → Resp → σ → Option GoErr × σ) (m : StatusMap D) (r : Resp)
    (v : σ) (hA : selectDecSwitch m r.statusCode = none)
    (hB : selectDecArith m r.statusCode = none) :
    statusDecodeSwitch run m r v = (statusNoDecFallback r, v) ∧
    statusDecodeArith run m r v = (statusNoDecFallback r, v) ∧
    ((statusDecodeSwitch run m r v).1 = none ↔ r.body = "") ∧
    (r.body ≠ "" →
      (statusDecodeSwitch run m r v).1 =
        some (.noDecoderError r.statusCode r.body)) := by
  have e1 : statusDecodeSwitch run m r v = (statusNoDecFallback r, v) := by
    unfold statusDecodeSwitch
    rw [hA]
  have e2 : statusDecodeArith run m r v = (statusNoDecFallback r, v) := by
    unfold statusDecodeArith
    rw [hB]
  refine ⟨e1, e2, ?_, ?_⟩
  · rw [e1]
    unfold statusNoDecFallback
    by_cases hb : r.body = "" <;> simp [hb]
  · intro hb
    rw [e1]
    unfold statusNoDecFallback
    simp [hb]

/-- C3 witness: an empty map with a 418 response and body `"teapot"` fails
with the no-decoder error carrying 418 and the body. -/
theorem statusDecoder_unmatched_fallback_witness :
    (statusDecodeSwitch (fun _ _ v => ((none : Option GoErr), v))
      ([] : StatusMap Nat) ⟨418, "teapot"⟩ (0 : Nat)).1 =
      some (.noDecoderError 418 "teapot") :=
  (statusDecoder_unmatched_fallback (fun _ _ v => (none, v)) [] ⟨418, "teapot"⟩
      0 (by decide) (by decide)).2.2.2 (by decide)

/-- C10: for every decoder map, every response with status code 100-599 and
every output slot, the range-switch `Decode` (decoder.go) and the arithmetic
`-code / 100` variant select the same sub-decoder (or both take the same
no-decoder fallback) and return the same result. -/
theorem statusDecoder_variants_equiv {D σ : Type}
    (run : D → Resp → σ → Option GoErr × σ) (m : StatusMap D) (r : Resp)
    (v : σ) (h : 100 ≤ r.statusCode ∧ r.statusCode < 600) :
    selectDecSwitch m r.statusCode = selectDecArith m r.statusCode ∧
    statusDecodeSwitch run m r v = statusDecodeArith run m r v := by
  have hsel := selectDec_eq m r.statusCode h.1 h.2
  refine ⟨hsel, ?_⟩
  unfold statusDecodeSwitch statusDecodeArith
  rw [hsel]

/-- C10 witness: both variants agree on a 503 response against a map with
only a 5xx bucket entry. -/
theorem statusDecoder_variants_equiv_witness :
    statusDecodeSwitch (fun d _ _ => (some (.otherError "e"), d))
      [(Status5xx, (3 : Nat))] ⟨503, "b"⟩ (0 : Nat) =
    statusDecodeArith (fun d _ _ => (some (.otherError "e"), d))
      [(Status5xx, (3 : Nat))] ⟨503, "b"⟩ (0 : Nat) :=
  (statusDecoder_variants_equiv (fun d _ _ => (some (.otherError "e"), d))
      [(Status5xx, (3 : Nat))] ⟨503, "b"⟩ 0 (by decide)).2

/-- C4: `Client.Do` merges headers by key-wise overwrite with precedence
request defaults < client's stored headers < ambient context headers: a key
in the ambient set carries exactly its values, else a key in the client set
carries exactly its values, else the request default survives. -/
theorem clientDo_header_precedence (c : ClientV) (method path : String)
    (baseHeader ambient : Header) :
    (∀ (k : String) (vs : List String), Header.find ambient k = some vs →
      Header.find (doSentRequest c method path baseHeader ambient).header k =
        some vs) ∧
    (∀ (k : String) (vs : List String), Header.find ambient k = none →
      Header.find c.header k = some vs →
      Header.find (doSentRequest c method path baseHeader ambient).header k =
        some vs) ∧
    (∀ k : String, Header.find ambient k = none →
      Header.find c.header k = none →
      Header.find (doSentRequest c method path baseHeader ambient).header k =
        Header.find baseHeader k) := by
  refine ⟨?_, ?_, ?_⟩
  · intro k vs h
    simp only [Header.find] at h
    show List.lookup k (ambient ++ (c.header ++ baseHeader)) = some vs
    rw [lookup_append, h]
  · intro k vs h1 h2
    simp only [Header.find] at h1 h2
    show List.lookup k (ambient ++ (c.header ++ baseHeader)) = some vs
    rw [lookup_append, h1, lookup_append, h2]
  · intro k h1 h2
    simp only [Header.find] at h1 h2
    show List.lookup k (ambient ++ (c.header ++ baseHeader)) =
      Header.find baseHeader k
    rw [lookup_append, h1, lookup_append, h2]
    rfl

/-- C4 witness: client header `X: a` plus ambient header `X: b` send
`X: b`. -/
theorem clientDo_header_precedence_witness :
    Header.find (doSentRequest ⟨"http://h", [("X", ["a"])]⟩ "GET" "/p" []
      [("X", ["b"])]).header "X" = some ["b"] :=
  (clientDo_header_precedence ⟨"http://h", [("X", ["a"])]⟩ "GET" "/p" []
      [("X", ["b"])]).1 "X" ["b"] (by decide)

/-- C1: `jsonErrorDecoder.Decode` does not extract the configured field: the
struct it decodes into is hard-wired to the JSON field `"error"`, so with
configured field `"message"` and body `\x7b"message":"oops"\x7d` the
produced error message is `""`, not `"oops"`; in general the decode result
is the same for every configured field name. -/
theorem jsonErrorDecoder_ignores_field :
    jsonErrorDecoderDecode "message" ⟨400, "\x7b\"message\":\"oops\"\x7d"⟩ =
      some (.httpError 400 "") ∧
    jsonErrorDecoderDecode "error" ⟨400, "\x7b\"error\":\"oops\"\x7d"⟩ =
      some (.httpError 400 "oops") ∧
    (∀ (f g : String) (r : Resp),
      jsonErrorDecoderDecode f r = jsonErrorDecoderDecode g r) :=
  ⟨by decide, by decide, fun _ _ _ => rfl⟩

/-- C2 counterexample: for `RespT = *U` with `U = Nat`, a `Do` that returns
an error still makes the callable return the freshly allocated pointer
(address 0) alongside the error — not the nil pointer the claim requires on
error. -/
theorem endpointPtr_not_nil_on_error :
    (endpointPtrCall (0 : Nat)
        (fun _ h => (h, some (.otherError "boom"))) ⟨fun _ => 0, 0⟩).1 =
      (some 0, some (.otherError "boom")) := rfl

/-- C2 (amended): for `RespT = *U`, the callable allocates a fresh `U`
(the next-fresh address, holding the zero value), passes its address as the
output pointer to `Do`, and returns that same pointer directly together
with `Do`'s error — on success and on error alike (the pointer is never
nil). -/
theorem endpointPtrCall_spec {U : Type} (zeroU : U)
    (doCall : Nat → HeapU U → HeapU U × Option GoErr) (h : HeapU U) :
    (endpointPtrCall zeroU doCall h).1.1 = some (heapAlloc zeroU h).1 ∧
    (heapAlloc zeroU h).1 = h.next ∧
    (heapAlloc zeroU h).2.data (heapAlloc zeroU h).1 = zeroU ∧
    (endpointPtrCall zeroU doCall h).1.2 =
      (doCall (heapAlloc zeroU h).1 (heapAlloc zeroU h).2).2 ∧
    (endpointPtrCall zeroU doCall h).2 =
      (doCall (heapAlloc zeroU h).1 (heapAlloc zeroU h).2).1 :=
  ⟨rfl, rfl, by simp [heapAlloc], rfl, rfl⟩

/-- C6 counterexample: on a client whose header map is nil, `WithHeader`
returns a client whose header field is the very reference passed in (no
fresh map is allocated: the store's next-fresh counter is unchanged) — the
returned header map aliases the caller's map instead of being an
independently owned copy. -/
theorem clientWithHeader_aliases_argument :
    (clientWithHeader ⟨0, 0, "", none⟩ 0
        ⟨fun _ => [("X", ["b"])], 1⟩).1.header = some 0 ∧
    (clientWithHeader ⟨0, 0, "", none⟩ 0
        ⟨fun _ => [("X", ["b"])], 1⟩).2.next = 1 :=
  ⟨rfl, rfl⟩

/-- C6 (amended): `WithHeader` returns a client sharing the transport,
codec and base URL, whose header map holds the merged entries (the
argument's entries overriding the client's); the original client's map is
never mutated. When the client already has a header map the result is a
freshly allocated, independently owned map (distinct from both the
client's and the argument's); when the client's map is nil, the returned
client adopts (aliases) the argument map itself. -/
theorem clientWithHeader_spec (c : GoClient) (hRef : Nat) (st : HeaderStore)
    (hwf : hRef < st.next) (hcwf : ∀ r, c.header = some r → r < st.next) :
    ((clientWithHeader c hRef st).1.httpClient = c.httpClient) ∧
    ((clientWithHeader c hRef st).1.codec = c.codec) ∧
    ((clientWithHeader c hRef st).1.baseURL = c.baseURL) ∧
    ((clientWithHeader c hRef st).1.headerEntries (clientWithHeader c hRef st).2 =
      headerOverwrite (c.headerEntries st) (st.maps hRef)) ∧
    (∀ r, c.header = some r →
      (clientWithHeader c hRef st).2.maps r = st.maps r) ∧
    (∀ r, c.header = some r →
      (clientWithHeader c hRef st).1.header = some st.next ∧
      st.next ≠ hRef ∧ st.next ≠ r) ∧
    (c.header = none →
      (clientWithHeader c hRef st).1.header = some hRef ∧
      (clientWithHeader c hRef st).2 = st) := by
  cases hc : c.header with
  | none =>
    refine ⟨?_, ?_, ?_, ?_, ?_, ?_, ?_⟩ <;>
      simp [clientWithHeader, hc, GoClient.headerEntries, headerOverwrite]
  | some r =>
    have hr : r < st.next := hcwf r hc
    refine ⟨?_, ?_, ?_, ?_, ?_, ?_, ?_⟩
    · simp [clientWithHeader, hc]
    · simp [clientWithHeader, hc]
    · simp [clientWithHeader, hc]
    · simp [clientWithHeader, hc, GoClient.headerEntries]
    · intro r2 hr2
      injection hr2 with he
      subst he
      simp only [clientWithHeader, hc]
      rw [if_neg (by omega : ¬ r = st.next)]
    · intro r2 hr2
      injection hr2 with he
      subst he
      refine ⟨by simp [clientWithHeader, hc], by omega, by omega⟩
    · intro hnone
      exact absurd hnone (by simp)

/-- C6 witness: a client holding `X: a` (map 0) merged with a map holding
`X: b` (map 1) yields a fresh map (reference 2) whose lookup for `X` is
`["b"]`, while map 0 is unchanged. -/
theorem clientWithHeader_spec_witness :
    Header.find
      ((clientWithHeader ⟨0, 0, "u", some 0⟩ 1
          ⟨fun r => if r = 0 then [("X", ["a"])] else [("X", ["b"])], 2⟩).1.headerEntries
        (clientWithHeader ⟨0, 0, "u", some 0⟩ 1
          ⟨fun r => if r = 0 then [("X", ["a"])] else [("X", ["b"])], 2⟩).2) "X" =
      some ["b"] := by
  have h := (clientWithHeader_spec ⟨0, 0, "u", some 0⟩ 1
      ⟨fun r => if r = 0 then [("X", ["a"])] else [("X", ["b"])], 2⟩
      (by decide) (fun r hr => by injection hr with he; subst he; decide)).2.2.2.1
  rw [h]
  decide
